import Mathlib

/-!
Verification of the kvikdos DOS emulator (`src/kvikdos.c`) against its
natural-language specification.

The dispatcher of `main` (the `KVM_EXIT_HLT` branch handling synthetic
software interrupts, lines 449-559 of the source) is embedded as a pure
function `dispatchInt` over a machine state; host `read`/`write` results
are supplied by an oracle `HostEnv`, and the host side effects performed
by a handler are recorded as a list of `HostAction`s.  The bootstrap
helpers `copy_args_to_dos_args` and `load_guest` are embedded over a
byte memory `Nat → Nat`.
-/

set_option maxRecDepth 8000

namespace Kvikdos

/-- Constant `MEM_SIZE` = `2 << 20`: the 2 MiB guest-physical arena. -/
def MEM_SIZE : Nat := 0x200000

/-- Constant `BASE_PARA`: paragraph of the PSP (`0x100`). -/
def BASE_PARA : Nat := 0x100

/-- Physical address of the PSP: `BASE_PARA << 4`. -/
def PSP_BASE : Nat := BASE_PARA <<< 4

/-- Address where `load_guest` places the .com image: `(BASE_PARA << 4) + 0x100`. -/
def IMAGE_START : Nat := PSP_BASE + 0x100

/-- Truncation to 8 bits (C `unsigned char` / `char` used as a byte). -/
def low8 (x : Nat) : Nat := x % 0x100

/-- Truncation to 16 bits (C `unsigned short`). -/
def low16 (x : Nat) : Nat := x % 0x10000

/-- Truncation to 32 bits (C `unsigned`). -/
def low32 (x : Nat) : Nat := x % 0x100000000

/-- The store `*(unsigned short *)&r = v`: overwrite the low 16 bits of a 64-bit
register, leaving the upper bits unchanged (little-endian store). -/
def setLow16 (r v : Nat) : Nat := r - low16 r + low16 v

/-- The store `*(unsigned short*)&regs.rflags |= 1 << 0`: set the carry flag (bit 0). -/
def setCF (f : Nat) : Nat := 2 * (f / 2) + 1

/-- The store `*(unsigned short*)&regs.rflags &= ~(1 << 0)`: clear the carry flag. -/
def clearCF (f : Nat) : Nat := 2 * (f / 2)

/-- A segment register: 16-bit selector plus cached base
(`struct kvm_segment` fields used by the source). -/
structure Seg where
  selector : Nat
  base : Nat
deriving DecidableEq

/-- The guest state the dispatcher reads and writes: `struct kvm_regs`,
`struct kvm_sregs` (the segment registers the dispatcher uses), and the
guest-physical memory `mem`. -/
structure Machine where
  rax : Nat
  rbx : Nat
  rcx : Nat
  rdx : Nat
  rsi : Nat
  rdi : Nat
  rsp : Nat
  rbp : Nat
  rip : Nat
  rflags : Nat
  cs : Seg
  ds : Seg
  es : Seg
  fs : Seg
  gs : Seg
  ss : Seg
  mem : Nat → Nat

/-- AH: `((unsigned)regs.rax >> 8) & 0xff`. -/
def getAH (m : Machine) : Nat := low32 m.rax / 0x100 % 0x100

/-- AL: `const char c = regs.rax`. -/
def getAL (m : Machine) : Nat := low8 m.rax

/-- DL: `(unsigned char)regs.rdx`. -/
def getDL (m : Machine) : Nat := low8 m.rdx

/-- Address of the interrupt return frame:
`((unsigned)sregs.ss.selector << 4) + ((unsigned)regs.rsp & 0xffff)`. -/
def frameAddr (ss sp : Nat) : Nat := low16 ss * 16 + low16 sp

/-- Address of a `DS:DX` buffer:
`((unsigned)sregs.ds.selector << 4) + ((unsigned)regs.rdx & 0xffff)`. -/
def bufAddr (ds dx : Nat) : Nat := low16 ds * 16 + low16 dx

/-- Read a little-endian 16-bit word from guest memory
(`const unsigned short *csip_ptr` dereference). -/
def readWord (mem : Nat → Nat) (a : Nat) : Nat :=
  low8 (mem a) + 0x100 * low8 (mem (a + 1))

/-- The pushed return IP: `int_ip = csip_ptr[0]`. -/
def frameIP (m : Machine) : Nat :=
  readWord m.mem (frameAddr m.ss.selector m.rsp)

/-- The pushed return CS: `int_cs = csip_ptr[1]`. -/
def frameCS (m : Machine) : Nat :=
  readWord m.mem (frameAddr m.ss.selector m.rsp + 2)

/-- The synthesized interrupt return (source lines 543-547):
`SET_SEGMENT_REG(cs, int_cs); regs.rip = int_ip; *(unsigned*)&regs.rsp += 6;`.
The `+= 6` acts on the low 32 bits of `rsp` (C `unsigned`). -/
def iretSynth (m : Machine) (int_cs int_ip : Nat) : Machine :=
  { m with
    cs := { selector := int_cs, base := int_cs <<< 4 },
    rip := int_ip,
    rsp := m.rsp - low32 m.rsp + low32 (low32 m.rsp + 6) }

/-- DOS handle to host file descriptor:
`if (fd == 3) fd = 2; else if (fd == 4) fd = 0;`. -/
def mapHandle (fd : Nat) : Nat := if fd = 3 then 2 else if fd = 4 then 0 else fd

/-- The guest-memory bytes `[addr, addr+n)` (the buffer a handler hands
to the host `write`). -/
def bufBytes (mem : Nat → Nat) (addr n : Nat) : List Nat :=
  (List.range n).map fun i => low8 (mem (addr + i))

/-- Oracle for the results of the host `write`/`read` system calls and
for the data a host `read` deposits in the guest buffer. -/
structure HostEnv where
  writeResult : Nat → Nat → Int
  readResult : Nat → Nat → Int
  readByte : Nat → Nat

/-- A host side effect performed by a handler. -/
inductive HostAction where
  | hwrite (fd : Nat) (bytes : List Nat)
  | hread (fd : Nat) (count : Nat)
deriving DecidableEq

/-- Outcome of dispatching one synthetic interrupt: either resume the
guest with an updated machine state, or terminate the host process. -/
inductive DispatchResult where
  | resume (m : Machine) (actions : List HostAction)
  | exitProcess (status : Nat) (actions : List HostAction)

def resumedMachine : DispatchResult → Option Machine
  | .resume m _ => some m
  | .exitProcess _ _ => none

def statusOf : DispatchResult → Option Nat
  | .resume _ _ => none
  | .exitProcess s _ => some s

def isResume : DispatchResult → Bool
  | .resume _ _ => true
  | .exitProcess _ _ => false

def actionsOf : DispatchResult → List HostAction
  | .resume _ a => a
  | .exitProcess _ a => a

/-- FLAGS of the machine handed back to the guest (`none` if the
dispatch terminated the process). -/
def flagsOf (r : DispatchResult) : Option Nat := (resumedMachine r).map Machine.rflags

/-- 16-bit AX of the machine handed back to the guest. -/
def axOf (r : DispatchResult) : Option Nat := (resumedMachine r).map fun m => low16 m.rax

/-- CF (bit 0 of FLAGS) handed back to the guest. -/
def cfOf (r : DispatchResult) : Option Nat := (flagsOf r).map (· % 2)

/-- INT 21h AH=0x40, write using handle (source lines 479-499). -/
def dos_write (env : HostEnv) (m : Machine) (int_cs int_ip : Nat) : DispatchResult :=
  let fd := low16 m.rbx
  if 4 < fd then
    .resume (iretSynth { m with rax := setLow16 m.rax 6, rflags := setCF m.rflags } int_cs int_ip) []
  else
    let addr := bufAddr m.ds.selector m.rdx
    let size := low16 m.rcx
    let fd2 := mapHandle fd
    let got := env.writeResult fd2 size
    if got < 0 then
      .resume (iretSynth { m with rax := setLow16 m.rax 0x1d, rflags := setCF m.rflags } int_cs int_ip)
        [.hwrite fd2 (bufBytes m.mem addr size)]
    else
      .resume (iretSynth { m with rflags := clearCF m.rflags, rax := setLow16 m.rax got.toNat } int_cs int_ip)
        [.hwrite fd2 (bufBytes m.mem addr size)]

/-- INT 21h AH=0x3F, read using handle (source lines 500-519).  On
success the host `read` deposits `got` bytes at the `DS:DX` buffer. -/
def dos_read (env : HostEnv) (m : Machine) (int_cs int_ip : Nat) : DispatchResult :=
  let fd := low16 m.rbx
  if 4 < fd then
    .resume (iretSynth { m with rax := setLow16 m.rax 6, rflags := setCF m.rflags } int_cs int_ip) []
  else
    let addr := bufAddr m.ds.selector m.rdx
    let size := low16 m.rcx
    let fd2 := mapHandle fd
    let got := env.readResult fd2 size
    if got < 0 then
      .resume (iretSynth { m with rax := setLow16 m.rax 0x1e, rflags := setCF m.rflags } int_cs int_ip)
        [.hread fd2 size]
    else
      let newMem := fun a => if addr ≤ a ∧ a < addr + got.toNat then env.readByte (a - addr) else m.mem a
      .resume (iretSynth { m with mem := newMem, rflags := clearCF m.rflags, rax := setLow16 m.rax got.toNat } int_cs int_ip)
        [.hread fd2 size]

/-- The `$`-scan of the AH=0x09 handler, fueled so that offsets
`dx, dx+1, ..., 0xffff` are examined; `0x24` is the `$` byte. -/
def findDollarAux (mem : Nat → Nat) (base : Nat) : Nat → Nat → Option Nat
  | 0, _ => none
  | fuel + 1, dx =>
      if low8 (mem (base + dx)) = 0x24 then some dx
      else findDollarAux mem base fuel (dx + 1)

/-- First offset `d ∈ [dx, 0x10000)` with a `$` byte at `base + d`,
`none` when the scan would wrap (`++dx; if (dx == 0)`). -/
def findDollar (mem : Nat → Nat) (base dx : Nat) : Option Nat :=
  findDollarAux mem base (0x10000 - dx) dx

/-- INT 21h AH=0x09, print `$`-terminated string (source lines 520-531).
A wrap of the 16-bit offset is fatal with `exit(252)` before any write;
otherwise `write(1, p + dx0, dx - dx0)`. -/
def dos_print (m : Machine) (int_cs int_ip : Nat) : DispatchResult :=
  let dx0 := low16 m.rdx
  let base := low16 m.ds.selector * 16
  match findDollar m.mem base dx0 with
  | none => .exitProcess 252 []
  | some d =>
      .resume (iretSynth m int_cs int_ip) [.hwrite 1 (bufBytes m.mem (base + dx0) (d - dx0))]

/-- One synthetic-interrupt dispatch (source lines 449-559): the body of
the `KVM_EXIT_HLT` magic-interrupt branch, for interrupt number
`int_num`.  `goto exit` paths end at `return 252`. -/
def dispatchInt (env : HostEnv) (m : Machine) (int_num : Nat) : DispatchResult :=
  let int_ip := frameIP m
  let int_cs := frameCS m
  let ah := getAH m
  if int_num = 0x29 then
    .resume (iretSynth m int_cs int_ip) [.hwrite 1 [getAL m]]
  else if int_num = 0x20 then
    .exitProcess 0 []
  else if int_num = 0x21 then
    if ah = 0x4c then
      .exitProcess (low8 m.rax) []
    else if ah = 0x06 ∧ getDL m ≠ 0xff then
      .resume (iretSynth m int_cs int_ip) [.hwrite 1 [getDL m]]
    else if ah = 0x04 then
      .resume (iretSynth m int_cs int_ip) [.hwrite 2 [getDL m]]
    else if ah = 0x05 then
      .resume (iretSynth m int_cs int_ip) [.hwrite 1 [getDL m]]
    else if ah = 0x30 then
      .resume (iretSynth { m with rax := setLow16 m.rax 5, rbx := setLow16 m.rbx 0xff00,
                                  rcx := setLow16 m.rcx 0 } int_cs int_ip) []
    else if ah = 0x40 then
      dos_write env m int_cs int_ip
    else if ah = 0x3f then
      dos_read env m int_cs int_ip
    else if ah = 0x09 then
      dos_print m int_cs int_ip
    else
      .resume (iretSynth m int_cs int_ip) []
  else if int_num = 0x10 then
    if ah = 0x0e then
      .resume (iretSynth m int_cs int_ip) [.hwrite 1 [getAL m]]
    else
      .exitProcess 252 []
  else
    .exitProcess 252 []

/-- Classification of a `KVM_EXIT_HLT`: a synthetic INT is recognized by
`cs.selector == 0x40 && (unsigned)((unsigned)regs.rip - 1) < 0x100`;
any other `hlt` is fatal. -/
def dispatchHlt (env : HostEnv) (m : Machine) : DispatchResult :=
  let d := (low32 m.rip + 0xffffffff) % 0x100000000
  if low16 m.cs.selector = 0x40 ∧ d < 0x100 then
    dispatchInt env m (d % 0x100)
  else
    .exitProcess 252 []

/-- Model of `load_guest`: the .com image bytes are copied verbatim to
`(BASE_PARA << 4) + 0x100`. -/
def load_guest (mem : Nat → Nat) (img : List Nat) : Nat → Nat :=
  fun a =>
    if IMAGE_START ≤ a ∧ a < IMAGE_START + img.length then img.getD (a - IMAGE_START) 0
    else mem a

/-- The loop of `copy_args_to_dos_args`: for each argument, check
`size + arg_size < size || size + arg_size > 127` (32-bit unsigned
arithmetic), then store one space and the argument bytes at `p + size`.
Returns the updated memory and final `size`, or `none` for the fatal
`exit(252)` path. -/
def copyArgsLoop (mem : Nat → Nat) (p : Nat) : Nat → List (List Nat) → Option ((Nat → Nat) × Nat)
  | size, [] => some (mem, size)
  | size, arg :: rest =>
      let argSize := arg.length % 0x100000000
      let sum := (size + argSize) % 0x100000000
      if sum < size ∨ 127 < sum then none
      else
        let mem1 := Function.update mem (p + size) 0x20
        let mem2 := fun a =>
          if p + size + 1 ≤ a ∧ a < p + size + 1 + argSize then (arg.take argSize).getD (a - (p + size + 1)) 0
          else mem1 a
        copyArgsLoop mem2 p (size + 1 + argSize) rest

/-- Model of `copy_args_to_dos_args(p, args)` (source lines 276-291): build the
DOS command-line tail at `p` (PSP offset 0x80), terminate with `0x0D`
(`p[size] = 0x0D`), and store the length byte `--size` at `p[0]`. -/
def copy_args_to_dos_args (mem : Nat → Nat) (p : Nat) (args : List (List Nat)) : Option (Nat → Nat) :=
  match copyArgsLoop mem p 1 args with
  | none => none
  | some (mem2, size) =>
      let mem3 := Function.update mem2 (p + size) 0x0d
      some (Function.update mem3 p ((size - 1) % 0x100))

/-- Encoded length of the DOS command-line tail: one leading space per
argument plus the argument bytes (the value finally stored in the PSP
length byte). -/
def encodedLen (args : List (List Nat)) : Nat := (args.map fun a => 1 + a.length).sum

/-- The register file of a machine state, with the memory projected
away: what the host writes back through `KVM_SET_REGS`/`KVM_SET_SREGS`. -/
def regList (m : Machine) : List Nat :=
  [m.rax, m.rbx, m.rcx, m.rdx, m.rsi, m.rdi, m.rsp, m.rbp, m.rip, m.rflags,
   m.cs.selector, m.cs.base, m.ds.selector, m.ds.base, m.es.selector, m.es.base,
   m.fs.selector, m.fs.base, m.gs.selector, m.gs.base, m.ss.selector, m.ss.base]

/-- The register changes a non-terminating handler makes before the
interrupt return is synthesized, as a function of registers and host
results only (no dependence on guest memory). -/
def handlerRegs (env : HostEnv) (m : Machine) (int_num : Nat) : Machine :=
  if int_num = 0x21 then
    let ah := getAH m
    if ah = 0x30 then
      { m with rax := setLow16 m.rax 5, rbx := setLow16 m.rbx 0xff00, rcx := setLow16 m.rcx 0 }
    else if ah = 0x40 then
      if 4 < low16 m.rbx then
        { m with rax := setLow16 m.rax 6, rflags := setCF m.rflags }
      else if env.writeResult (mapHandle (low16 m.rbx)) (low16 m.rcx) < 0 then
        { m with rax := setLow16 m.rax 0x1d, rflags := setCF m.rflags }
      else
        { m with rflags := clearCF m.rflags,
                 rax := setLow16 m.rax (env.writeResult (mapHandle (low16 m.rbx)) (low16 m.rcx)).toNat }
    else if ah = 0x3f then
      if 4 < low16 m.rbx then
        { m with rax := setLow16 m.rax 6, rflags := setCF m.rflags }
      else if env.readResult (mapHandle (low16 m.rbx)) (low16 m.rcx) < 0 then
        { m with rax := setLow16 m.rax 0x1e, rflags := setCF m.rflags }
      else
        { m with rflags := clearCF m.rflags,
                 rax := setLow16 m.rax (env.readResult (mapHandle (low16 m.rbx)) (low16 m.rcx)).toNat }
    else m
  else m

/-- Host oracle where every `read`/`write` returns 0. -/
def envZ : HostEnv := { writeResult := fun _ _ => 0, readResult := fun _ _ => 0, readByte := fun _ => 0 }

/-- A concrete guest state right after an `INT` trapped through the
magic interrupt table: CS=0x40, SS:SP pointing at a zeroed stack. -/
def m0 : Machine :=
  { rax := 0, rbx := 0, rcx := 0, rdx := 0, rsi := 0, rdi := 0, rsp := 0xfffa, rbp := 0,
    rip := 0x2a, rflags := 2, cs := ⟨0x40, 0x400⟩, ds := ⟨0x100, 0x1000⟩, es := ⟨0x100, 0x1000⟩,
    fs := ⟨0x100, 0x1000⟩, gs := ⟨0x100, 0x1000⟩, ss := ⟨0x100, 0x1000⟩, mem := fun _ => 0 }

/-- Guest invoking INT 21h with the unimplemented AH=0x0A. -/
def mC1 : Machine := { m0 with rax := 0x0a00 }

/-- Guest invoking INT 21h AH=0x30 (get DOS version) with CF=1 in FLAGS. -/
def mC2 : Machine := { m0 with rax := 0x3000, rflags := 3 }

/-- Guest invoking INT 21h AH=0x04. -/
def mW2 : Machine := { m0 with rax := 0x0400 }

/-- Guest invoking INT 21h AH=0x40 with the invalid handle BX=9. -/
def mW5 : Machine := { m0 with rax := 0x4000, rbx := 9 }

/-- Guest invoking INT 21h AH=0x4C with AL=0x2A. -/
def mW6 : Machine := { m0 with rax := 0x4c2a }

/-- Guest invoking INT 21h AH=0x40 with handle BX=4 (STDPRN) and CX=0. -/
def mW7 : Machine := { m0 with rax := 0x4000, rbx := 4, rcx := 0 }

/-- Guest invoking INT 21h AH=0x09 with DS=0, DX=2 and a `$` at offset 3. -/
def mW8 : Machine :=
  { m0 with rax := 0x0900, rdx := 2, ds := ⟨0, 0⟩, mem := fun a => if a = 3 then 0x24 else 0 }

/-- Arguments whose encoded tail has length exactly 127. -/
def args127 : List (List Nat) := [List.replicate 126 0x41]

/-- A one-byte .com image. -/
def img1 : List Nat := [0xb8]

section DispatchLemmas

variable (env : HostEnv) (m : Machine)

lemma dInt_29 : dispatchInt env m 0x29 =
    .resume (iretSynth m (frameCS m) (frameIP m)) [.hwrite 1 [getAL m]] := by
  simp [dispatchInt]

lemma dInt_20 : dispatchInt env m 0x20 = .exitProcess 0 [] := by
  simp [dispatchInt]

lemma dInt_other {n : Nat} (h29 : n ≠ 0x29) (h20 : n ≠ 0x20) (h21 : n ≠ 0x21)
    (h10 : n ≠ 0x10) : dispatchInt env m n = .exitProcess 252 [] := by
  simp [dispatchInt, h29, h20, h21, h10]

lemma dInt_10_0e (h : getAH m = 0x0e) : dispatchInt env m 0x10 =
    .resume (iretSynth m (frameCS m) (frameIP m)) [.hwrite 1 [getAL m]] := by
  simp [dispatchInt, h]

lemma dInt_10_other (h : getAH m ≠ 0x0e) : dispatchInt env m 0x10 = .exitProcess 252 [] := by
  simp [dispatchInt, h]

lemma dInt_21_4c (h : getAH m = 0x4c) : dispatchInt env m 0x21 =
    .exitProcess (low8 m.rax) [] := by
  simp [dispatchInt, h]

lemma dInt_21_06_out (h : getAH m = 0x06) (hdl : getDL m ≠ 0xff) :
    dispatchInt env m 0x21 =
      .resume (iretSynth m (frameCS m) (frameIP m)) [.hwrite 1 [getDL m]] := by
  simp [dispatchInt, h, hdl]

lemma dInt_21_06_ff (h : getAH m = 0x06) (hdl : getDL m = 0xff) :
    dispatchInt env m 0x21 = .resume (iretSynth m (frameCS m) (frameIP m)) [] := by
  simp [dispatchInt, h, hdl]

lemma dInt_21_04 (h : getAH m = 0x04) : dispatchInt env m 0x21 =
    .resume (iretSynth m (frameCS m) (frameIP m)) [.hwrite 2 [getDL m]] := by
  simp [dispatchInt, h]

lemma dInt_21_05 (h : getAH m = 0x05) : dispatchInt env m 0x21 =
    .resume (iretSynth m (frameCS m) (frameIP m)) [.hwrite 1 [getDL m]] := by
  simp [dispatchInt, h]

lemma dInt_21_30 (h : getAH m = 0x30) : dispatchInt env m 0x21 =
    .resume (iretSynth { m with rax := setLow16 m.rax 5, rbx := setLow16 m.rbx 0xff00,
                                rcx := setLow16 m.rcx 0 } (frameCS m) (frameIP m)) [] := by
  simp [dispatchInt, h]

lemma dInt_21_40 (h : getAH m = 0x40) : dispatchInt env m 0x21 =
    dos_write env m (frameCS m) (frameIP m) := by
  simp [dispatchInt, h]

lemma dInt_21_3f (h : getAH m = 0x3f) : dispatchInt env m 0x21 =
    dos_read env m (frameCS m) (frameIP m) := by
  simp [dispatchInt, h]

lemma dInt_21_09 (h : getAH m = 0x09) : dispatchInt env m 0x21 =
    dos_print m (frameCS m) (frameIP m) := by
  simp [dispatchInt, h]

lemma dInt_21_default (h4c : getAH m ≠ 0x4c) (h06 : getAH m ≠ 0x06)
    (h04 : getAH m ≠ 0x04) (h05 : getAH m ≠ 0x05) (h30 : getAH m ≠ 0x30)
    (h40 : getAH m ≠ 0x40) (h3f : getAH m ≠ 0x3f) (h09 : getAH m ≠ 0x09) :
    dispatchInt env m 0x21 = .resume (iretSynth m (frameCS m) (frameIP m)) [] := by
  simp [dispatchInt, h4c, h06, h04, h05, h30, h40, h3f, h09]

lemma dw_badfd (ic ip : Nat) (h : 4 < low16 m.rbx) :
    dos_write env m ic ip =
      .resume (iretSynth { m with rax := setLow16 m.rax 6, rflags := setCF m.rflags } ic ip) [] := by
  simp [dos_write, h]

lemma dw_fail (ic ip : Nat) (hfd : low16 m.rbx ≤ 4)
    (hres : env.writeResult (mapHandle (low16 m.rbx)) (low16 m.rcx) < 0) :
    dos_write env m ic ip =
      .resume (iretSynth { m with rax := setLow16 m.rax 0x1d, rflags := setCF m.rflags } ic ip)
        [.hwrite (mapHandle (low16 m.rbx)) (bufBytes m.mem (bufAddr m.ds.selector m.rdx) (low16 m.rcx))] := by
  simp [dos_write, Nat.not_lt.mpr hfd, hres]

lemma dw_ok (ic ip : Nat) (hfd : low16 m.rbx ≤ 4)
    (hres : 0 ≤ env.writeResult (mapHandle (low16 m.rbx)) (low16 m.rcx)) :
    dos_write env m ic ip =
      .resume (iretSynth { m with rflags := clearCF m.rflags,
                                  rax := setLow16 m.rax (env.writeResult (mapHandle (low16 m.rbx)) (low16 m.rcx)).toNat } ic ip)
        [.hwrite (mapHandle (low16 m.rbx)) (bufBytes m.mem (bufAddr m.ds.selector m.rdx) (low16 m.rcx))] := by
  simp [dos_write, Nat.not_lt.mpr hfd, Int.not_lt.mpr hres]

lemma dr_badfd (ic ip : Nat) (h : 4 < low16 m.rbx) :
    dos_read env m ic ip =
      .resume (iretSynth { m with rax := setLow16 m.rax 6, rflags := setCF m.rflags } ic ip) [] := by
  simp [dos_read, h]

lemma dr_fail (ic ip : Nat) (hfd : low16 m.rbx ≤ 4)
    (hres : env.readResult (mapHandle (low16 m.rbx)) (low16 m.rcx) < 0) :
    dos_read env m ic ip =
      .resume (iretSynth { m with rax := setLow16 m.rax 0x1e, rflags := setCF m.rflags } ic ip)
        [.hread (mapHandle (low16 m.rbx)) (low16 m.rcx)] := by
  simp [dos_read, Nat.not_lt.mpr hfd, hres]

lemma dr_ok (ic ip : Nat) (hfd : low16 m.rbx ≤ 4)
    (hres : 0 ≤ env.readResult (mapHandle (low16 m.rbx)) (low16 m.rcx)) :
    dos_read env m ic ip =
      .resume (iretSynth { m with
                           mem := fun a => if bufAddr m.ds.selector m.rdx ≤ a ∧
                               a < bufAddr m.ds.selector m.rdx + (env.readResult (mapHandle (low16 m.rbx)) (low16 m.rcx)).toNat
                             then env.readByte (a - bufAddr m.ds.selector m.rdx) else m.mem a,
                           rflags := clearCF m.rflags,
                           rax := setLow16 m.rax (env.readResult (mapHandle (low16 m.rbx)) (low16 m.rcx)).toNat } ic ip)
        [.hread (mapHandle (low16 m.rbx)) (low16 m.rcx)] := by
  simp [dos_read, Nat.not_lt.mpr hfd, Int.not_lt.mpr hres]

lemma dp_some (ic ip d : Nat)
    (h : findDollar m.mem (low16 m.ds.selector * 16) (low16 m.rdx) = some d) :
    dos_print m ic ip =
      .resume (iretSynth m ic ip)
        [.hwrite 1 (bufBytes m.mem (low16 m.ds.selector * 16 + low16 m.rdx) (d - low16 m.rdx))] := by
  simp [dos_print, h]

lemma dp_none (ic ip : Nat)
    (h : findDollar m.mem (low16 m.ds.selector * 16) (low16 m.rdx) = none) :
    dos_print m ic ip = .exitProcess 252 [] := by
  simp [dos_print, h]

end DispatchLemmas

section Helpers

lemma low16_setLow16 (r v : Nat) : low16 (setLow16 r v) = low16 v := by
  unfold setLow16 low16
  omega

lemma setCF_mod_two (f : Nat) : setCF f % 2 = 1 := by
  unfold setCF; omega

lemma clearCF_mod_two (f : Nat) : clearCF f % 2 = 0 := by
  unfold clearCF; omega

lemma setCF_div_two (f : Nat) : setCF f / 2 = f / 2 := by
  unfold setCF; omega

lemma clearCF_div_two (f : Nat) : clearCF f / 2 = f / 2 := by
  unfold clearCF; omega

@[simp] lemma iret_rax (m : Machine) (ic ip : Nat) : (iretSynth m ic ip).rax = m.rax := rfl

@[simp] lemma iret_rbx (m : Machine) (ic ip : Nat) : (iretSynth m ic ip).rbx = m.rbx := rfl

@[simp] lemma iret_rcx (m : Machine) (ic ip : Nat) : (iretSynth m ic ip).rcx = m.rcx := rfl

@[simp] lemma iret_rflags (m : Machine) (ic ip : Nat) : (iretSynth m ic ip).rflags = m.rflags := rfl

@[simp] lemma iret_rip (m : Machine) (ic ip : Nat) : (iretSynth m ic ip).rip = ip := rfl

@[simp] lemma iret_cs (m : Machine) (ic ip : Nat) : (iretSynth m ic ip).cs = ⟨ic, ic <<< 4⟩ := rfl

@[simp] lemma iret_rsp (m : Machine) (ic ip : Nat) :
    (iretSynth m ic ip).rsp = m.rsp - low32 m.rsp + low32 (low32 m.rsp + 6) := rfl

lemma iret_rsp_low32 (m : Machine) (ic ip : Nat) :
    low32 (iretSynth m ic ip).rsp = (low32 m.rsp + 6) % 0x100000000 := by
  unfold iretSynth low32
  simp only []
  omega

lemma iret_rsp_low16 (m : Machine) (ic ip : Nat) :
    low16 (iretSynth m ic ip).rsp = (low16 m.rsp + 6) % 0x10000 := by
  unfold iretSynth low32 low16
  simp only []
  omega

@[simp] lemma flagsOf_resume (m : Machine) (a : List HostAction) :
    flagsOf (.resume m a) = some m.rflags := rfl

@[simp] lemma axOf_resume (m : Machine) (a : List HostAction) :
    axOf (.resume m a) = some (low16 m.rax) := rfl

@[simp] lemma actionsOf_resume (m : Machine) (a : List HostAction) :
    actionsOf (.resume m a) = a := rfl

end Helpers

section FindDollarSpec

lemma findDollarAux_some_iff (mem : Nat → Nat) (base : Nat) :
    ∀ fuel dx d, findDollarAux mem base fuel dx = some d ↔
      (dx ≤ d ∧ d < dx + fuel ∧ low8 (mem (base + d)) = 0x24 ∧
       ∀ j, dx ≤ j → j < d → low8 (mem (base + j)) ≠ 0x24) := by
  intro fuel
  induction fuel with
  | zero =>
      intro dx d
      simp only [findDollarAux]
      constructor
      · intro h; cases h
      · rintro ⟨h1, h2, _⟩; omega
  | succ n ih =>
      intro dx d
      simp only [findDollarAux]
      by_cases hb : low8 (mem (base + dx)) = 0x24
      · simp only [hb, if_true]
        constructor
        · rintro h
          cases h
          exact ⟨le_refl _, by omega, hb, fun j h1 h2 => by omega⟩
        · rintro ⟨h1, h2, h3, h4⟩
          rcases Nat.eq_or_lt_of_le h1 with heq | hlt
          · exact congrArg some heq
          · exact absurd hb (h4 dx (le_refl _) hlt)
      · simp only [hb, if_false, ih]
        constructor
        · rintro ⟨h1, h2, h3, h4⟩
          refine ⟨by omega, by omega, h3, fun j hj1 hj2 => ?_⟩
          rcases Nat.eq_or_lt_of_le hj1 with heq | hlt
          · subst heq; exact hb
          · exact h4 j hlt hj2
        · rintro ⟨h1, h2, h3, h4⟩
          have hne : d ≠ dx := fun heq => by subst heq; exact hb h3
          exact ⟨by omega, by omega, h3, fun j hj1 hj2 => h4 j (by omega) hj2⟩

/-- Lemma: `findDollar` finds exactly the first `$` byte at an offset in
`[dx, 0x10000)`. -/
lemma findDollar_some_iff (mem : Nat → Nat) (base dx d : Nat) :
    findDollar mem base dx = some d ↔
      (dx ≤ d ∧ d < 0x10000 ∧ low8 (mem (base + d)) = 0x24 ∧
       ∀ j, dx ≤ j → j < d → low8 (mem (base + j)) ≠ 0x24) := by
  unfold findDollar
  rw [findDollarAux_some_iff]
  by_cases h : dx < 0x10000
  · constructor
    · rintro ⟨h1, h2, h3, h4⟩; exact ⟨h1, by omega, h3, h4⟩
    · rintro ⟨h1, h2, h3, h4⟩; exact ⟨h1, by omega, h3, h4⟩
  · constructor
    · rintro ⟨h1, h2, _⟩; omega
    · rintro ⟨h1, h2, _⟩; omega

lemma findDollarAux_none_iff (mem : Nat → Nat) (base : Nat) :
    ∀ fuel dx, findDollarAux mem base fuel dx = none ↔
      ∀ j, dx ≤ j → j < dx + fuel → low8 (mem (base + j)) ≠ 0x24 := by
  intro fuel
  induction fuel with
  | zero =>
      intro dx
      simp only [findDollarAux]
      constructor
      · intro _ j hj1 hj2; omega
      · intro _; trivial
  | succ n ih =>
      intro dx
      simp only [findDollarAux]
      by_cases hb : low8 (mem (base + dx)) = 0x24
      · simp only [hb, if_true]
        constructor
        · intro h; cases h
        · intro h; exact absurd hb (h dx (le_refl _) (by omega))
      · simp only [hb, if_false, ih]
        constructor
        · intro h j hj1 hj2
          rcases Nat.eq_or_lt_of_le hj1 with heq | hlt
          · subst heq; exact hb
          · exact h j hlt (by omega)
        · intro h j hj1 hj2
          exact h j (by omega) (by omega)

/-- Lemma: `findDollar` fails (the fatal offset-wrap path) exactly when no
offset in `[dx, 0x10000)` holds a `$` byte. -/
lemma findDollar_none_iff (mem : Nat → Nat) (base dx : Nat) :
    findDollar mem base dx = none ↔
      ∀ j, dx ≤ j → j < 0x10000 → low8 (mem (base + j)) ≠ 0x24 := by
  unfold findDollar
  rw [findDollarAux_none_iff]
  by_cases h : dx < 0x10000
  · constructor
    · intro hall j hj1 hj2; exact hall j hj1 (by omega)
    · intro hall j hj1 hj2; exact hall j hj1 (by omega)
  · constructor
    · intro _ j hj1 hj2 _; omega
    · intro _ j hj1 hj2 _; omega

end FindDollarSpec

section CopyArgs

lemma copyArgsLoop_le (p : Nat) :
    ∀ (args : List (List Nat)) (mem : Nat → Nat) (size : Nat) (m2 : Nat → Nat) (s2 : Nat),
      copyArgsLoop mem p size args = some (m2, s2) → size ≤ s2 := by
  intro args
  induction args with
  | nil =>
      intro mem size m2 s2 h
      simp only [copyArgsLoop] at h
      cases h
      exact le_refl _
  | cons arg rest ih =>
      intro mem size m2 s2 h
      simp only [copyArgsLoop] at h
      split at h
      · cases h
      · have := ih _ _ _ _ h
        omega

lemma copyArgsLoop_size (p : Nat) :
    ∀ (args : List (List Nat)) (mem : Nat → Nat) (size : Nat) (m2 : Nat → Nat) (s2 : Nat),
      (∀ a ∈ args, a.length < 0x100000000) → size ≤ 128 →
      copyArgsLoop mem p size args = some (m2, s2) → s2 = size + encodedLen args := by
  intro args
  induction args with
  | nil =>
      intro mem size m2 s2 _ _ h
      simp only [copyArgsLoop] at h
      cases h
      simp [encodedLen]
  | cons arg rest ih =>
      intro mem size m2 s2 hargs hsize h
      simp only [copyArgsLoop] at h
      have hlen : arg.length < 0x100000000 := hargs arg (List.mem_cons_self _ _)
      have hmod : arg.length % 0x100000000 = arg.length := Nat.mod_eq_of_lt hlen
      rw [hmod] at h
      split at h
      · cases h
      · rename_i hcond
        rw [not_or] at hcond
        obtain ⟨hc1, hc2⟩ := hcond
        have hsum : (size + arg.length) % 0x100000000 = size + arg.length := by
          rcases Nat.lt_or_ge (size + arg.length) 0x100000000 with hlt | hge
          · exact Nat.mod_eq_of_lt hlt
          · exfalso
            have : (size + arg.length) % 0x100000000 = size + arg.length - 0x100000000 := by
              omega
            omega
        rw [hsum] at hc1 hc2
        have hrec := ih _ _ _ _ (fun a ha => hargs a (List.mem_cons_of_mem _ ha)) (by omega) h
        simp only [encodedLen, List.map_cons, List.sum_cons] at hrec ⊢
        omega

lemma copyArgsLoop_isSome (p : Nat) :
    ∀ (args : List (List Nat)) (mem : Nat → Nat) (size : Nat),
      (∀ a ∈ args, a.length < 0x100000000) → size ≤ 128 →
      ((copyArgsLoop mem p size args).isSome = true ↔ size + encodedLen args ≤ 128) := by
  intro args
  induction args with
  | nil =>
      intro mem size _ hsize
      simp only [copyArgsLoop, Option.isSome_some, encodedLen, List.map_nil, List.sum_nil]
      constructor
      · intro _; omega
      · intro _; trivial
  | cons arg rest ih =>
      intro mem size hargs hsize
      simp only [copyArgsLoop]
      have hlen : arg.length < 0x100000000 := hargs arg (List.mem_cons_self _ _)
      have hmod : arg.length % 0x100000000 = arg.length := Nat.mod_eq_of_lt hlen
      rw [hmod]
      simp only [encodedLen, List.map_cons, List.sum_cons]
      split
      · rename_i hcond
        constructor
        · intro hfalse; simp at hfalse
        · intro h128
          exfalso
          have hsum : (size + arg.length) % 0x100000000 = size + arg.length :=
            Nat.mod_eq_of_lt (by omega)
          rw [hsum] at hcond
          omega
      · rename_i hcond
        rw [not_or] at hcond
        obtain ⟨hc1, hc2⟩ := hcond
        have hsum : (size + arg.length) % 0x100000000 = size + arg.length := by
          rcases Nat.lt_or_ge (size + arg.length) 0x100000000 with hlt | hge
          · exact Nat.mod_eq_of_lt hlt
          · exfalso
            have : (size + arg.length) % 0x100000000 = size + arg.length - 0x100000000 := by
              omega
            omega
        rw [hsum] at hc1 hc2
        rw [ih _ _ (fun a ha => hargs a (List.mem_cons_of_mem _ ha)) (by omega)]
        simp only [encodedLen]
        omega

lemma copyArgsLoop_frame (p : Nat) :
    ∀ (args : List (List Nat)) (mem : Nat → Nat) (size : Nat) (m2 : Nat → Nat) (s2 : Nat),
      copyArgsLoop mem p size args = some (m2, s2) →
      ∀ a, (a < p + size ∨ p + s2 ≤ a) → m2 a = mem a := by
  intro args
  induction args with
  | nil =>
      intro mem size m2 s2 h a _
      simp only [copyArgsLoop] at h
      cases h
      rfl
  | cons arg rest ih =>
      intro mem size m2 s2 h a ha
      simp only [copyArgsLoop] at h
      split at h
      · cases h
      · have hle := copyArgsLoop_le p rest _ _ _ _ h
        have hih := ih _ _ _ _ h a (by omega)
        rw [hih]
        have hnotin : ¬(p + size + 1 ≤ a ∧ a < p + size + 1 + arg.length % 0x100000000) := by
          omega
        simp only [hnotin, if_false]
        rw [Function.update_noteq (by omega)]

/-- Lemma: `copy_args_to_dos_args` succeeds exactly when the encoded tail fits
in 127 bytes. -/
lemma copy_args_isSome (mem : Nat → Nat) (p : Nat) (args : List (List Nat))
    (hargs : ∀ a ∈ args, a.length < 0x100000000) :
    ((copy_args_to_dos_args mem p args).isSome = true ↔ encodedLen args ≤ 127) := by
  unfold copy_args_to_dos_args
  have h := copyArgsLoop_isSome p args mem 1 hargs (by omega)
  cases hl : copyArgsLoop mem p 1 args with
  | none =>
      rw [hl] at h
      constructor
      · intro hfalse; simp at hfalse
      · intro h127
        exfalso
        have : (Option.isSome (none : Option ((Nat → Nat) × Nat)) = true) := h.mpr (by omega)
        simp at this
  | some v =>
      rw [hl] at h
      have h128 : 1 + encodedLen args ≤ 128 := h.mp (by simp)
      constructor
      · intro _; omega
      · intro _; simp

/-- On success: the length byte at `p`, the `0x0D` terminator one past
the tail, and the frame (no byte outside `[p, p + len + 1]` changes). -/
lemma copy_args_some_props (mem : Nat → Nat) (p : Nat) (args : List (List Nat))
    (r : Nat → Nat) (hargs : ∀ a ∈ args, a.length < 0x100000000)
    (h : copy_args_to_dos_args mem p args = some r) :
    r p = encodedLen args ∧ r (p + encodedLen args + 1) = 0x0d ∧
    (∀ a, a < p ∨ p + encodedLen args + 1 < a → r a = mem a) := by
  unfold copy_args_to_dos_args at h
  cases hl : copyArgsLoop mem p 1 args with
  | none => rw [hl] at h; cases h
  | some v =>
      obtain ⟨m2, s2⟩ := v
      rw [hl] at h
      simp only [Option.some_inj] at h
      have hs2 : s2 = 1 + encodedLen args := copyArgsLoop_size p args mem 1 m2 s2 hargs (by omega) hl
      have henc : encodedLen args ≤ 127 := by
        have hi := copyArgsLoop_isSome p args mem 1 hargs (by omega)
        rw [hl] at hi
        simp only [Option.isSome_some, true_iff] at hi
        omega
      subst h
      refine ⟨?_, ?_, ?_⟩
      · rw [Function.update_same]
        omega
      · rw [Function.update_noteq (by omega)]
        have : p + encodedLen args + 1 = p + s2 := by omega
        rw [this, Function.update_same]
      · intro a ha
        rw [Function.update_noteq (by omega), Function.update_noteq (by omega)]
        exact copyArgsLoop_frame p args mem 1 m2 s2 hl a (by omega)

end CopyArgs

section ShapeLemmas

lemma handlerRegs_not21 (env : HostEnv) (m : Machine) {n : Nat} (h : n ≠ 0x21) :
    handlerRegs env m n = m := by
  simp [handlerRegs, h]

lemma handlerRegs_21_30 (env : HostEnv) (m : Machine) (h : getAH m = 0x30) :
    handlerRegs env m 0x21 =
      { m with rax := setLow16 m.rax 5, rbx := setLow16 m.rbx 0xff00, rcx := setLow16 m.rcx 0 } := by
  simp [handlerRegs, h]

lemma handlerRegs_21_pass (env : HostEnv) (m : Machine) (h30 : getAH m ≠ 0x30)
    (h40 : getAH m ≠ 0x40) (h3f : getAH m ≠ 0x3f) :
    handlerRegs env m 0x21 = m := by
  simp [handlerRegs, h30, h40, h3f]

lemma handlerRegs_rsp (env : HostEnv) (m : Machine) (n : Nat) :
    (handlerRegs env m n).rsp = m.rsp := by
  simp only [handlerRegs]
  split_ifs <;> rfl

lemma handlerRegs_rflags (env : HostEnv) (m : Machine) (n : Nat) :
    (handlerRegs env m n).rflags = m.rflags ∨
    (handlerRegs env m n).rflags = setCF m.rflags ∨
    (handlerRegs env m n).rflags = clearCF m.rflags := by
  simp only [handlerRegs]
  split_ifs <;> simp

lemma regList_iret_congr (x y : Machine) (ic₁ ip₁ ic₂ ip₂ : Nat)
    (h : regList x = regList y) (hic : ic₁ = ic₂) (hip : ip₁ = ip₂) :
    regList (iretSynth x ic₁ ip₁) = regList (iretSynth y ic₂ ip₂) := by
  subst hic hip
  cases x
  cases y
  simp only [regList, iretSynth, List.cons.injEq] at h ⊢
  simp_all

@[simp] lemma memUpdate_rax (m : Machine) (g : Nat → Nat) : ({ m with mem := g } : Machine).rax = m.rax := rfl

@[simp] lemma memUpdate_rbx (m : Machine) (g : Nat → Nat) : ({ m with mem := g } : Machine).rbx = m.rbx := rfl

@[simp] lemma memUpdate_rcx (m : Machine) (g : Nat → Nat) : ({ m with mem := g } : Machine).rcx = m.rcx := rfl

@[simp] lemma memUpdate_getAH (m : Machine) (g : Nat → Nat) : getAH { m with mem := g } = getAH m := rfl

lemma handlerRegs_update_mem (env : HostEnv) (m : Machine) (g : Nat → Nat) (n : Nat) :
    handlerRegs env { m with mem := g } n = { handlerRegs env m n with mem := g } := by
  simp only [handlerRegs, memUpdate_rax, memUpdate_rbx, memUpdate_rcx, memUpdate_getAH]
  split_ifs <;> rfl

/-- Every dispatch that resumes the guest hands back the registers of
`iretSynth (handlerRegs env m int_num)` applied to the stack-frame
`CS₀`/`IP₀` words: the register outcome depends on guest memory only
through those two words. -/
lemma resume_shape (env : HostEnv) (m : Machine) (n : Nat) (m2 : Machine)
    (acts : List HostAction) (h : dispatchInt env m n = .resume m2 acts) :
    regList m2 = regList (iretSynth (handlerRegs env m n) (frameCS m) (frameIP m)) := by
  by_cases h29 : n = 0x29
  · subst h29
    rw [dInt_29] at h
    injection h with h1 _
    rw [← h1, handlerRegs_not21 env m (by omega)]
  · by_cases h20 : n = 0x20
    · subst h20
      rw [dInt_20] at h
      exact DispatchResult.noConfusion h
    · by_cases h21 : n = 0x21
      · subst h21
        by_cases h4c : getAH m = 0x4c
        · rw [dInt_21_4c env m h4c] at h
          exact DispatchResult.noConfusion h
        · by_cases h06 : getAH m = 0x06
          · by_cases hdl : getDL m = 0xff
            · rw [dInt_21_06_ff env m h06 hdl] at h
              injection h with h1 _
              rw [← h1, handlerRegs_21_pass env m (by omega) (by omega) (by omega)]
            · rw [dInt_21_06_out env m h06 hdl] at h
              injection h with h1 _
              rw [← h1, handlerRegs_21_pass env m (by omega) (by omega) (by omega)]
          · by_cases h04 : getAH m = 0x04
            · rw [dInt_21_04 env m h04] at h
              injection h with h1 _
              rw [← h1, handlerRegs_21_pass env m (by omega) (by omega) (by omega)]
            · by_cases h05 : getAH m = 0x05
              · rw [dInt_21_05 env m h05] at h
                injection h with h1 _
                rw [← h1, handlerRegs_21_pass env m (by omega) (by omega) (by omega)]
              · by_cases h30 : getAH m = 0x30
                · rw [dInt_21_30 env m h30] at h
                  injection h with h1 _
                  rw [← h1, handlerRegs_21_30 env m h30]
                · by_cases h40 : getAH m = 0x40
                  · rw [dInt_21_40 env m h40] at h
                    by_cases hfd : 4 < low16 m.rbx
                    · rw [dw_badfd env m _ _ hfd] at h
                      injection h with h1 _
                      rw [← h1]
                      simp [handlerRegs, h40, hfd]
                    · by_cases hres : env.writeResult (mapHandle (low16 m.rbx)) (low16 m.rcx) < 0
                      · rw [dw_fail env m _ _ (Nat.le_of_not_lt hfd) hres] at h
                        injection h with h1 _
                        rw [← h1]
                        simp [handlerRegs, h40, hfd, hres]
                      · rw [dw_ok env m _ _ (Nat.le_of_not_lt hfd) (Int.not_lt.mp hres)] at h
                        injection h with h1 _
                        rw [← h1]
                        simp [handlerRegs, h40, hfd, hres]
                  · by_cases h3f : getAH m = 0x3f
                    · rw [dInt_21_3f env m h3f] at h
                      by_cases hfd : 4 < low16 m.rbx
                      · rw [dr_badfd env m _ _ hfd] at h
                        injection h with h1 _
                        rw [← h1]
                        simp [handlerRegs, h3f, hfd]
                      · by_cases hres : env.readResult (mapHandle (low16 m.rbx)) (low16 m.rcx) < 0
                        · rw [dr_fail env m _ _ (Nat.le_of_not_lt hfd) hres] at h
                          injection h with h1 _
                          rw [← h1]
                          simp [handlerRegs, h3f, hfd, hres]
                        · rw [dr_ok env m _ _ (Nat.le_of_not_lt hfd) (Int.not_lt.mp hres)] at h
                          injection h with h1 _
                          rw [← h1]
                          simp [handlerRegs, h3f, hfd, hres]
                          rfl
                    · by_cases h09 : getAH m = 0x09
                      · rw [dInt_21_09 env m h09] at h
                        cases hfd : findDollar m.mem (low16 m.ds.selector * 16) (low16 m.rdx) with
                        | none =>
                            rw [dp_none m _ _ hfd] at h
                            exact DispatchResult.noConfusion h
                        | some d =>
                            rw [dp_some m _ _ d hfd] at h
                            injection h with h1 _
                            rw [← h1, handlerRegs_21_pass env m (by omega) (by omega) (by omega)]
                      · rw [dInt_21_default env m h4c h06 h04 h05 h30 h40 h3f h09] at h
                        injection h with h1 _
                        rw [← h1, handlerRegs_21_pass env m h30 h40 h3f]
      · by_cases h10 : n = 0x10
        · subst h10
          by_cases h0e : getAH m = 0x0e
          · rw [dInt_10_0e env m h0e] at h
            injection h with h1 _
            rw [← h1, handlerRegs_not21 env m (by omega)]
          · rw [dInt_10_other env m h0e] at h
            exact DispatchResult.noConfusion h
        · rw [dInt_other env m h29 h20 h21 h10] at h
          exact DispatchResult.noConfusion h

end ShapeLemmas

lemma regList_fields {x y : Machine} (h : regList x = regList y) :
    x.rax = y.rax ∧ x.rbx = y.rbx ∧ x.rcx = y.rcx ∧ x.rdx = y.rdx ∧ x.rsp = y.rsp ∧
    x.rip = y.rip ∧ x.rflags = y.rflags ∧ x.cs.selector = y.cs.selector ∧
    x.cs.base = y.cs.base ∧ x.ss.selector = y.ss.selector := by
  cases x
  cases y
  simp only [regList, List.cons.injEq] at h
  simp_all

/-- Claim C1 (counterexample): INT 21h with the unlisted AH=0x0A is not
fatal — the dispatcher resumes the guest (with no host action), because
the AH chain of the INT 21h branch has no final `else`. -/
theorem c1_counterexample :
    getAH mC1 = 0x0a ∧ isResume (dispatchInt envZ mC1 0x21) = true ∧
    statusOf (dispatchInt envZ mC1 0x21) = none ∧
    actionsOf (dispatchInt envZ mC1 0x21) = [] := by
  refine ⟨rfl, rfl, rfl, rfl⟩

/-- Claim C1 (amended): an INT number outside {0x20, 0x29, 0x21, 0x10}
is fatal with exit status 252, and so is INT 10h with AH ≠ 0x0E; but
INT 21h with an AH outside the recognized set is a silent no-op that
resumes the guest with the standard return-frame pop. -/
theorem c1_amended :
    (∀ (env : HostEnv) (m : Machine) (n : Nat), n ≠ 0x20 → n ≠ 0x29 → n ≠ 0x21 → n ≠ 0x10 →
       dispatchInt env m n = .exitProcess 252 []) ∧
    (∀ (env : HostEnv) (m : Machine), getAH m ≠ 0x0e →
       dispatchInt env m 0x10 = .exitProcess 252 []) ∧
    (∀ (env : HostEnv) (m : Machine), getAH m ≠ 0x4c → getAH m ≠ 0x06 → getAH m ≠ 0x04 →
       getAH m ≠ 0x05 → getAH m ≠ 0x30 → getAH m ≠ 0x40 → getAH m ≠ 0x3f → getAH m ≠ 0x09 →
       dispatchInt env m 0x21 = .resume (iretSynth m (frameCS m) (frameIP m)) []) := by
  refine ⟨?_, ?_, ?_⟩
  · intro env m n h20 h29 h21 h10
    exact dInt_other env m h29 h20 h21 h10
  · intro env m h
    exact dInt_10_other env m h
  · intro env m h4c h06 h04 h05 h30 h40 h3f h09
    exact dInt_21_default env m h4c h06 h04 h05 h30 h40 h3f h09

/-- Claim C1 (witness): INT 0x13 is fatal with exit status 252. -/
theorem c1_witness : dispatchInt envZ m0 0x13 = .exitProcess 252 [] :=
  c1_amended.1 envZ m0 0x13 (by decide) (by decide) (by decide) (by decide)

/-- Claim C2 (counterexample): the successful AH=0x30 handler (get DOS
version, which sets AX=5) does not clear CF: invoked with CF=1 in the
guest FLAGS, it returns to the guest with CF still 1. -/
theorem c2_counterexample :
    getAH mC2 = 0x30 ∧ mC2.rflags % 2 = 1 ∧
    axOf (dispatchInt envZ mC2 0x21) = some 5 ∧
    cfOf (dispatchInt envZ mC2 0x21) = some 1 := by
  refine ⟨rfl, rfl, rfl, rfl⟩

/-- Claim C2 (amended): only the AH=0x3F/0x40 handlers manage CF — on a
documented error they return CF=1 with AX the DOS error code (6 invalid
handle, 0x1D write fault, 0x1E read fault) and on success CF=0; the
other INT 21h handlers that return to the guest (AH=0x04, 0x05, 0x06,
0x09, 0x30) leave FLAGS entirely unchanged, so the guest's CF at INT
time persists. -/
theorem c2_amended :
    (∀ (env : HostEnv) (m : Machine), getAH m = 0x04 →
       flagsOf (dispatchInt env m 0x21) = some m.rflags) ∧
    (∀ (env : HostEnv) (m : Machine), getAH m = 0x05 →
       flagsOf (dispatchInt env m 0x21) = some m.rflags) ∧
    (∀ (env : HostEnv) (m : Machine), getAH m = 0x06 →
       flagsOf (dispatchInt env m 0x21) = some m.rflags) ∧
    (∀ (env : HostEnv) (m : Machine), getAH m = 0x30 →
       flagsOf (dispatchInt env m 0x21) = some m.rflags) ∧
    (∀ (env : HostEnv) (m : Machine) (d : Nat), getAH m = 0x09 →
       findDollar m.mem (low16 m.ds.selector * 16) (low16 m.rdx) = some d →
       flagsOf (dispatchInt env m 0x21) = some m.rflags) ∧
    (∀ (env : HostEnv) (m : Machine), (getAH m = 0x40 ∨ getAH m = 0x3f) → 4 < low16 m.rbx →
       cfOf (dispatchInt env m 0x21) = some 1 ∧ axOf (dispatchInt env m 0x21) = some 6) ∧
    (∀ (env : HostEnv) (m : Machine), getAH m = 0x40 → low16 m.rbx ≤ 4 →
       env.writeResult (mapHandle (low16 m.rbx)) (low16 m.rcx) < 0 →
       cfOf (dispatchInt env m 0x21) = some 1 ∧ axOf (dispatchInt env m 0x21) = some 0x1d) ∧
    (∀ (env : HostEnv) (m : Machine), getAH m = 0x3f → low16 m.rbx ≤ 4 →
       env.readResult (mapHandle (low16 m.rbx)) (low16 m.rcx) < 0 →
       cfOf (dispatchInt env m 0x21) = some 1 ∧ axOf (dispatchInt env m 0x21) = some 0x1e) ∧
    (∀ (env : HostEnv) (m : Machine), getAH m = 0x40 → low16 m.rbx ≤ 4 →
       0 ≤ env.writeResult (mapHandle (low16 m.rbx)) (low16 m.rcx) →
       cfOf (dispatchInt env m 0x21) = some 0) ∧
    (∀ (env : HostEnv) (m : Machine), getAH m = 0x3f → low16 m.rbx ≤ 4 →
       0 ≤ env.readResult (mapHandle (low16 m.rbx)) (low16 m.rcx) →
       cfOf (dispatchInt env m 0x21) = some 0) := by
  refine ⟨?_, ?_, ?_, ?_, ?_, ?_, ?_, ?_, ?_, ?_⟩
  · intro env m h
    rw [dInt_21_04 env m h]
    simp
  · intro env m h
    rw [dInt_21_05 env m h]
    simp
  · intro env m h
    by_cases hdl : getDL m = 0xff
    · rw [dInt_21_06_ff env m h hdl]
      simp
    · rw [dInt_21_06_out env m h hdl]
      simp
  · intro env m h
    rw [dInt_21_30 env m h]
    simp
  · intro env m d h hfd
    rw [dInt_21_09 env m h, dp_some m _ _ d hfd]
    simp
  · intro env m h hfd
    rcases h with h | h
    · rw [dInt_21_40 env m h, dw_badfd env m _ _ hfd]
      simp [cfOf, setCF_mod_two, low16]
      unfold setLow16 low16
      omega
    · rw [dInt_21_3f env m h, dr_badfd env m _ _ hfd]
      simp [cfOf, setCF_mod_two, low16]
      unfold setLow16 low16
      omega
  · intro env m h hfd hres
    rw [dInt_21_40 env m h, dw_fail env m _ _ hfd hres]
    simp [cfOf, setCF_mod_two, low16]
    unfold setLow16 low16
    omega
  · intro env m h hfd hres
    rw [dInt_21_3f env m h, dr_fail env m _ _ hfd hres]
    simp [cfOf, setCF_mod_two, low16]
    unfold setLow16 low16
    omega
  · intro env m h hfd hres
    rw [dInt_21_40 env m h, dw_ok env m _ _ hfd hres]
    simp [cfOf, clearCF_mod_two]
  · intro env m h hfd hres
    rw [dInt_21_3f env m h, dr_ok env m _ _ hfd hres]
    simp [cfOf, clearCF_mod_two]

/-- Claim C2 (witness): AH=0x04 (STDAUX output) hands the incoming
FLAGS word (2) back to the guest unchanged. -/
theorem c2_witness : flagsOf (dispatchInt envZ mW2 0x21) = some mW2.rflags :=
  c2_amended.1 envZ mW2 (by decide)

/-- Claim C3: every guest-memory address a handler touches stays inside
the 2 MiB arena and the access covers its full length — the return
frame at `frameAddr` (even taken 6 bytes wide), the CX-byte `DS:DX`
buffer at `bufAddr` of AH=0x3F/0x40, and every 16-bit offset of the
AH=0x09 scan. -/
theorem c3_bounds : ∀ ss sp ds dx cx : Nat,
    frameAddr ss sp + 6 ≤ MEM_SIZE ∧
    bufAddr ds dx + low16 cx ≤ MEM_SIZE ∧
    (∀ off : Nat, bufAddr ds off < MEM_SIZE) := by
  intro ss sp ds dx cx
  unfold frameAddr bufAddr low16 MEM_SIZE
  refine ⟨?_, ?_, fun off => ?_⟩ <;> omega

/-- Claim C6: INT 20h terminates the host process with status 0, and
INT 21h AH=0x4C terminates it with status AL (`exit(rax & 0xff)`),
which is below 256 for every guest state. -/
theorem c6_exit_codes :
    (∀ (env : HostEnv) (m : Machine), dispatchInt env m 0x20 = .exitProcess 0 []) ∧
    (∀ (env : HostEnv) (m : Machine), getAH m = 0x4c →
       dispatchInt env m 0x21 = .exitProcess (getAL m) []) ∧
    (∀ m : Machine, getAL m < 0x100) := by
  refine ⟨fun env m => dInt_20 env m, fun env m h => dInt_21_4c env m h, fun m => ?_⟩
  unfold getAL low8
  omega

/-- Claim C6 (witness): `MOV AX, 0x4C2A; INT 0x21` exits with status 42. -/
theorem c6_witness : dispatchInt envZ mW6 0x21 = .exitProcess 0x2a [] := by
  have h := c6_exit_codes.2.1 envZ mW6 (by decide)
  exact h

/-- Claim C4: every dispatch that resumes the guest sets
`CS.selector := CS₀`, `CS.base := CS₀ * 16`, `IP := IP₀` (the two words
read at `SS:SP`), advances SP by exactly 6, and leaves FLAGS as the
handler produced them (unchanged, or with only CF set/cleared) — never
restoring them from the stack; moreover the register file handed back
is unchanged if the FLAGS₀ word of the frame (bytes `SS:SP+4`,
`SS:SP+5`) is replaced by anything else, so that word is never read. -/
theorem c4_iret :
    (∀ (env : HostEnv) (n : Nat) (m m2 : Machine) (acts : List HostAction),
       dispatchInt env m n = .resume m2 acts →
       m2.cs.selector = frameCS m ∧ m2.cs.base = frameCS m * 16 ∧ m2.rip = frameIP m ∧
       low32 m2.rsp = (low32 m.rsp + 6) % 0x100000000 ∧
       low16 m2.rsp = (low16 m.rsp + 6) % 0x10000 ∧
       (m2.rflags = m.rflags ∨ m2.rflags = setCF m.rflags ∨ m2.rflags = clearCF m.rflags)) ∧
    (∀ (env : HostEnv) (n : Nat) (m : Machine) (g : Nat → Nat) (m2 m3 : Machine)
       (acts acts2 : List HostAction),
       (∀ a, a ≠ frameAddr m.ss.selector m.rsp + 4 → a ≠ frameAddr m.ss.selector m.rsp + 5 →
          g a = m.mem a) →
       dispatchInt env m n = .resume m2 acts →
       dispatchInt env { m with mem := g } n = .resume m3 acts2 →
       regList m2 = regList m3) := by
  constructor
  · intro env n m m2 acts h
    have hs := resume_shape env m n m2 acts h
    obtain ⟨_, _, _, _, hrsp, hrip, hrfl, hcssel, hcsbase, _⟩ := regList_fields hs
    simp only [iret_cs, iret_rip, iret_rsp, iret_rflags, handlerRegs_rsp] at hrsp hrip hrfl hcssel hcsbase
    refine ⟨hcssel, ?_, hrip, ?_, ?_, ?_⟩
    · rw [hcsbase, Nat.shiftLeft_eq]
    · rw [hrsp]
      unfold low32
      omega
    · rw [hrsp]
      unfold low32 low16
      omega
    · rw [hrfl]
      exact handlerRegs_rflags env m n
  · intro env n m g m2 m3 acts acts2 hg h1 h2
    have hs1 := resume_shape env m n m2 acts h1
    have hs2 := resume_shape env { m with mem := g } n m3 acts2 h2
    have hip : frameIP { m with mem := g } = frameIP m := by
      show readWord g (frameAddr m.ss.selector m.rsp) = readWord m.mem (frameAddr m.ss.selector m.rsp)
      unfold readWord
      rw [hg _ (by omega) (by omega), hg _ (by omega) (by omega)]
    have hcs : frameCS { m with mem := g } = frameCS m := by
      show readWord g (frameAddr m.ss.selector m.rsp + 2) = readWord m.mem (frameAddr m.ss.selector m.rsp + 2)
      unfold readWord
      rw [hg _ (by omega) (by omega), hg _ (by omega) (by omega)]
    rw [hip, hcs, handlerRegs_update_mem env m g n] at hs2
    rw [hs1, hs2]
    exact (regList_iret_congr _ _ _ _ _ _ rfl rfl rfl).symm

/-- Claim C4 (witness): the INT 0x29 dispatch from the concrete state
`m0` returns with CS:IP taken from the stack frame, SP advanced by 6
and FLAGS untouched. -/
theorem c4_witness :
    (iretSynth m0 (frameCS m0) (frameIP m0)).cs.selector = frameCS m0 ∧
    (iretSynth m0 (frameCS m0) (frameIP m0)).cs.base = frameCS m0 * 16 ∧
    (iretSynth m0 (frameCS m0) (frameIP m0)).rip = frameIP m0 ∧
    low32 (iretSynth m0 (frameCS m0) (frameIP m0)).rsp = (low32 m0.rsp + 6) % 0x100000000 ∧
    low16 (iretSynth m0 (frameCS m0) (frameIP m0)).rsp = (low16 m0.rsp + 6) % 0x10000 ∧
    ((iretSynth m0 (frameCS m0) (frameIP m0)).rflags = m0.rflags ∨
     (iretSynth m0 (frameCS m0) (frameIP m0)).rflags = setCF m0.rflags ∨
     (iretSynth m0 (frameCS m0) (frameIP m0)).rflags = clearCF m0.rflags) :=
  c4_iret.1 envZ 0x29 m0 (iretSynth m0 (frameCS m0) (frameIP m0)) [.hwrite 1 [getAL m0]] rfl

/-- Claim C5: for AH=0x40 and AH=0x3F — BX ≥ 5 yields AX=6, CF=1 with
no host I/O; a failed host write yields AX=0x1D, CF=1; a failed host
read yields AX=0x1E, CF=1; success yields AX = bytes transferred and
CF=0; and AH=0x40 with CX=0 on a valid handle performs a zero-length
host write and returns AX=0, CF=0. -/
theorem c5_handle_io :
    (∀ (env : HostEnv) (m : Machine), getAH m = 0x40 → 4 < low16 m.rbx →
       dispatchInt env m 0x21 =
         .resume (iretSynth { m with rax := setLow16 m.rax 6, rflags := setCF m.rflags }
           (frameCS m) (frameIP m)) []) ∧
    (∀ (env : HostEnv) (m : Machine), getAH m = 0x3f → 4 < low16 m.rbx →
       dispatchInt env m 0x21 =
         .resume (iretSynth { m with rax := setLow16 m.rax 6, rflags := setCF m.rflags }
           (frameCS m) (frameIP m)) []) ∧
    (∀ (env : HostEnv) (m : Machine), getAH m = 0x40 → low16 m.rbx ≤ 4 →
       env.writeResult (mapHandle (low16 m.rbx)) (low16 m.rcx) < 0 →
       axOf (dispatchInt env m 0x21) = some 0x1d ∧ cfOf (dispatchInt env m 0x21) = some 1) ∧
    (∀ (env : HostEnv) (m : Machine), getAH m = 0x3f → low16 m.rbx ≤ 4 →
       env.readResult (mapHandle (low16 m.rbx)) (low16 m.rcx) < 0 →
       axOf (dispatchInt env m 0x21) = some 0x1e ∧ cfOf (dispatchInt env m 0x21) = some 1) ∧
    (∀ (env : HostEnv) (m : Machine) (got : Nat), getAH m = 0x40 → low16 m.rbx ≤ 4 →
       env.writeResult (mapHandle (low16 m.rbx)) (low16 m.rcx) = Int.ofNat got →
       axOf (dispatchInt env m 0x21) = some (low16 got) ∧ cfOf (dispatchInt env m 0x21) = some 0) ∧
    (∀ (env : HostEnv) (m : Machine) (got : Nat), getAH m = 0x3f → low16 m.rbx ≤ 4 →
       env.readResult (mapHandle (low16 m.rbx)) (low16 m.rcx) = Int.ofNat got →
       axOf (dispatchInt env m 0x21) = some (low16 got) ∧ cfOf (dispatchInt env m 0x21) = some 0) ∧
    (∀ (env : HostEnv) (m : Machine), getAH m = 0x40 → low16 m.rbx ≤ 4 → low16 m.rcx = 0 →
       env.writeResult (mapHandle (low16 m.rbx)) 0 = 0 →
       dispatchInt env m 0x21 =
         .resume (iretSynth { m with rflags := clearCF m.rflags, rax := setLow16 m.rax 0 }
           (frameCS m) (frameIP m)) [.hwrite (mapHandle (low16 m.rbx)) []]) := by
  refine ⟨?_, ?_, ?_, ?_, ?_, ?_, ?_⟩
  · intro env m h hfd
    rw [dInt_21_40 env m h]
    exact dw_badfd env m _ _ hfd
  · intro env m h hfd
    rw [dInt_21_3f env m h]
    exact dr_badfd env m _ _ hfd
  · intro env m h hfd hres
    rw [dInt_21_40 env m h, dw_fail env m _ _ hfd hres]
    constructor
    · simp only [axOf_resume, iret_rax]
      unfold setLow16 low16
      simp only [Option.some_inj]
      omega
    · simp [cfOf, setCF_mod_two]
  · intro env m h hfd hres
    rw [dInt_21_3f env m h, dr_fail env m _ _ hfd hres]
    constructor
    · simp only [axOf_resume, iret_rax]
      unfold setLow16 low16
      simp only [Option.some_inj]
      omega
    · simp [cfOf, setCF_mod_two]
  · intro env m got h hfd hres
    rw [dInt_21_40 env m h, dw_ok env m _ _ hfd (by rw [hres]; exact Int.ofNat_nonneg got)]
    constructor
    · simp only [axOf_resume, iret_rax, hres, Int.toNat_ofNat, Option.some_inj]
      exact low16_setLow16 m.rax got
    · simp [cfOf, clearCF_mod_two]
  · intro env m got h hfd hres
    rw [dInt_21_3f env m h, dr_ok env m _ _ hfd (by rw [hres]; exact Int.ofNat_nonneg got)]
    constructor
    · simp only [axOf_resume, iret_rax, hres, Int.toNat_ofNat, Option.some_inj]
      exact low16_setLow16 m.rax got
    · simp [cfOf, clearCF_mod_two]
  · intro env m h hfd hcx hres0
    have hres : 0 ≤ env.writeResult (mapHandle (low16 m.rbx)) (low16 m.rcx) := by
      rw [hcx, hres0]
    rw [dInt_21_40 env m h, dw_ok env m _ _ hfd hres]
    rw [hcx, hres0]
    simp [bufBytes]

/-- Claim C5 (witness): AH=0x40 with the invalid handle BX=9 resumes
with AX=6, CF=1 and no host I/O. -/
theorem c5_witness :
    dispatchInt envZ mW5 0x21 =
      .resume (iretSynth { mW5 with rax := setLow16 mW5.rax 6, rflags := setCF mW5.rflags }
        (frameCS mW5) (frameIP mW5)) [] :=
  c5_handle_io.1 envZ mW5 (by decide) (by decide)

/-- Claim C7: the DOS handle in BX maps to host fds as 0,1,2 ↦ 0,1,2,
3 ↦ 2 (STDAUX via stderr), 4 ↦ 0 (STDPRN, actually wired to fd 0); both
AH=0x40 and AH=0x3F issue their host I/O on `mapHandle BX`, and in
particular a write via handle 4 writes on fd 0. -/
theorem c7_handle_map :
    mapHandle 0 = 0 ∧ mapHandle 1 = 1 ∧ mapHandle 2 = 2 ∧ mapHandle 3 = 2 ∧ mapHandle 4 = 0 ∧
    (∀ (env : HostEnv) (m : Machine), getAH m = 0x40 → low16 m.rbx ≤ 4 →
       actionsOf (dispatchInt env m 0x21) =
         [.hwrite (mapHandle (low16 m.rbx))
            (bufBytes m.mem (bufAddr m.ds.selector m.rdx) (low16 m.rcx))]) ∧
    (∀ (env : HostEnv) (m : Machine), getAH m = 0x3f → low16 m.rbx ≤ 4 →
       actionsOf (dispatchInt env m 0x21) = [.hread (mapHandle (low16 m.rbx)) (low16 m.rcx)]) ∧
    (∀ (env : HostEnv) (m : Machine), getAH m = 0x40 → low16 m.rbx = 4 →
       actionsOf (dispatchInt env m 0x21) =
         [.hwrite 0 (bufBytes m.mem (bufAddr m.ds.selector m.rdx) (low16 m.rcx))]) := by
  have hw : ∀ (env : HostEnv) (m : Machine), getAH m = 0x40 → low16 m.rbx ≤ 4 →
      actionsOf (dispatchInt env m 0x21) =
        [.hwrite (mapHandle (low16 m.rbx))
           (bufBytes m.mem (bufAddr m.ds.selector m.rdx) (low16 m.rcx))] := by
    intro env m h hfd
    rw [dInt_21_40 env m h]
    by_cases hres : env.writeResult (mapHandle (low16 m.rbx)) (low16 m.rcx) < 0
    · rw [dw_fail env m _ _ hfd hres]
      rfl
    · rw [dw_ok env m _ _ hfd (Int.not_lt.mp hres)]
      rfl
  refine ⟨rfl, rfl, rfl, rfl, rfl, hw, ?_, ?_⟩
  · intro env m h hfd
    rw [dInt_21_3f env m h]
    by_cases hres : env.readResult (mapHandle (low16 m.rbx)) (low16 m.rcx) < 0
    · rw [dr_fail env m _ _ hfd hres]
      rfl
    · rw [dr_ok env m _ _ hfd (Int.not_lt.mp hres)]
      rfl
  · intro env m h hbx
    have := hw env m h (by omega)
    rw [hbx] at this
    simpa [mapHandle] using this

/-- Claim C7 (witness): a write via handle 4 with CX=0 issues its host
write on fd 0 (stdin), not fd 1. -/
theorem c7_witness : actionsOf (dispatchInt envZ mW7 0x21) = [.hwrite 0 []] := by
  have h := c7_handle_map.2.2.2.2.2.2.2 envZ mW7 (by decide) (by decide)
  simpa [bufBytes] using h

/-- Claim C8: AH=0x09 scans from `DS:DX` to the first `$` byte (the
characterizations of `findDollar` below make "first" precise), writes
exactly the bytes strictly before it to fd 1 (stdout) and resumes; if
no offset in `[DX, 0x10000)` holds a `$` — the 16-bit offset would
wrap — the process exits with status 252 without writing. -/
theorem c8_print_string :
    (∀ (env : HostEnv) (m : Machine) (d : Nat), getAH m = 0x09 →
       findDollar m.mem (low16 m.ds.selector * 16) (low16 m.rdx) = some d →
       dispatchInt env m 0x21 =
         .resume (iretSynth m (frameCS m) (frameIP m))
           [.hwrite 1 (bufBytes m.mem (low16 m.ds.selector * 16 + low16 m.rdx)
              (d - low16 m.rdx))]) ∧
    (∀ (env : HostEnv) (m : Machine), getAH m = 0x09 →
       findDollar m.mem (low16 m.ds.selector * 16) (low16 m.rdx) = none →
       dispatchInt env m 0x21 = .exitProcess 252 []) ∧
    (∀ (mem : Nat → Nat) (base dx d : Nat),
       findDollar mem base dx = some d ↔
         (dx ≤ d ∧ d < 0x10000 ∧ low8 (mem (base + d)) = 0x24 ∧
          ∀ j, dx ≤ j → j < d → low8 (mem (base + j)) ≠ 0x24)) ∧
    (∀ (mem : Nat → Nat) (base dx : Nat),
       findDollar mem base dx = none ↔
         ∀ j, dx ≤ j → j < 0x10000 → low8 (mem (base + j)) ≠ 0x24) ∧
    (∀ (mem : Nat → Nat) (addr n : Nat), (bufBytes mem addr n).length = n) := by
  refine ⟨?_, ?_, findDollar_some_iff, findDollar_none_iff, ?_⟩
  · intro env m d h hfd
    rw [dInt_21_09 env m h]
    exact dp_some m _ _ d hfd
  · intro env m h hfd
    rw [dInt_21_09 env m h]
    exact dp_none m _ _ hfd
  · intro mem addr n
    simp [bufBytes]

/-- Claim C8 (witness): with DS=0, DX=2 and the only `$` at offset 3,
the handler writes the single byte before the `$` to stdout. -/
theorem c8_witness :
    dispatchInt envZ mW8 0x21 =
      .resume (iretSynth mW8 (frameCS mW8) (frameIP mW8))
        [.hwrite 1 (bufBytes mW8.mem (low16 mW8.ds.selector * 16 + low16 mW8.rdx)
           (3 - low16 mW8.rdx))] :=
  c8_print_string.1 envZ mW8 3 (by decide) (by decide)

/-- Claim C9: the encoded command-line tail (one leading space per
argument) is accepted exactly when its length is at most 127 — length
127 builds successfully, length 128 or more takes the fatal
`exit(252)` path — and on success the length byte at `p` excludes the
`0x0D` terminator stored right after the tail. -/
theorem c9_cmdline_bound : ∀ (mem : Nat → Nat) (p : Nat) (args : List (List Nat)),
    (∀ a ∈ args, a.length < 0x100000000) →
    (((copy_args_to_dos_args mem p args).isSome = true) ↔ encodedLen args ≤ 127) ∧
    (∀ r, copy_args_to_dos_args mem p args = some r →
       r p = encodedLen args ∧ r (p + encodedLen args + 1) = 0x0d) := by
  intro mem p args hargs
  refine ⟨copy_args_isSome mem p args hargs, fun r h => ?_⟩
  have hp := copy_args_some_props mem p args r hargs h
  exact ⟨hp.1, hp.2.1⟩

/-- Claim C9 (witness): a single 126-byte argument encodes to exactly
127 bytes and is accepted. -/
theorem c9_witness :
    encodedLen args127 = 127 ∧
    (copy_args_to_dos_args (fun _ => 0) 0 args127).isSome = true := by
  have h := c9_cmdline_bound (fun _ => 0) 0 args127 (by decide)
  exact ⟨by decide, h.1.mpr (by decide)⟩

/-- Claim C10: with a maximal (127-byte) tail the bootstrap stores the
`0x0D` terminator at `PSP + 0x100` — one byte past the 256-byte PSP and
exactly `IMAGE_START`, the entry byte of the previously loaded .com
image — overwriting it with 0x0D; with a tail of at most 126 bytes
every modified byte stays inside the PSP. -/
theorem c10_psp_overflow : ∀ (mem0 : Nat → Nat) (img : List Nat) (args : List (List Nat)),
    (∀ a ∈ args, a.length < 0x100000000) →
    (PSP_BASE + 0x80 + 0x80 = IMAGE_START) ∧
    (img ≠ [] → load_guest mem0 img IMAGE_START = img.getD 0 0) ∧
    (encodedLen args = 127 → ∀ r,
       copy_args_to_dos_args (load_guest mem0 img) (PSP_BASE + 0x80) args = some r →
       r IMAGE_START = 0x0d) ∧
    (encodedLen args ≤ 126 → ∀ r,
       copy_args_to_dos_args (load_guest mem0 img) (PSP_BASE + 0x80) args = some r →
       ∀ a, r a ≠ load_guest mem0 img a → PSP_BASE + 0x80 ≤ a ∧ a < PSP_BASE + 0x100) := by
  intro mem0 img args hargs
  refine ⟨by decide, ?_, ?_, ?_⟩
  · intro hne
    have hlen : 0 < img.length := List.length_pos.mpr hne
    simp only [load_guest]
    rw [if_pos ⟨le_refl _, by omega⟩]
    simp
  · intro henc r h
    have hp := copy_args_some_props _ _ _ r hargs h
    have := hp.2.1
    rw [henc] at this
    have haddr : PSP_BASE + 0x80 + 127 + 1 = IMAGE_START := by decide
    rw [haddr] at this
    exact this
  · intro henc r h a hne
    have hp := copy_args_some_props _ _ _ r hargs h
    by_contra hout
    apply hne
    apply hp.2.2
    unfold PSP_BASE BASE_PARA at hout ⊢
    omega

/-- Claim C10 (witness): a 126-byte argument (tail length 127) makes
the bootstrap overwrite the first image byte with 0x0D. -/
theorem c10_witness :
    encodedLen args127 = 127 ∧
    ((copy_args_to_dos_args (load_guest (fun _ => 0) img1) (PSP_BASE + 0x80) args127).map
       fun r => r IMAGE_START) = some 0x0d := by
  refine ⟨by decide, ?_⟩
  have h := (c10_psp_overflow (fun _ => 0) img1 args127 (by decide)).2.2.1 (by decide)
  cases hc : copy_args_to_dos_args (load_guest (fun _ => 0) img1) (PSP_BASE + 0x80) args127 with
  | none =>
      exfalso
      have hiso : (copy_args_to_dos_args (load_guest (fun _ => 0) img1) (PSP_BASE + 0x80)
          args127).isSome = true := by decide
      rw [hc] at hiso
      simp at hiso
  | some r =>
      exact congrArg some (h r hc)

end Kvikdos
